import Mathlib

/-!
# Shallow embedding of sysfs (fs/sysfs/dir.c + file.c section, Linux 2.6.18 fork)

The embedding covers the two subsystems the claims are about:

* the attribute-file buffer protocol (`struct sysfs_buffer`,
  `fill_read_buffer`, `flush_read_buffer`, `sysfs_read_file`,
  `fill_write_buffer`, `flush_write_buffer`, `sysfs_write_file`,
  `sysfs_poll`, `sysfs_notify`);
* the directory-entry shadow tree (`struct sysfs_dirent`,
  `sysfs_new_dirent`, `sysfs_dirent_exist`, `sysfs_make_dirent`,
  `sysfs_add_file`, `sysfs_lookup`, `sysfs_readdir`, `sysfs_dir_open`,
  `create_dir`, `sysfs_rename_dir`).

Modelling conventions:
* user-space memory is a `List Nat` of byte values; `copy_to_user` /
  `copy_from_user` faults and `get_zeroed_page` allocation failures are
  explicit `Bool` parameters (`copyOk`, `allocOk`) since they depend on the
  environment, not on this code;
* a `show` invocation is represented by its outcome: `Except.ok out` for a
  non-negative return (bytes written to the page are `out`, return value is
  `out.length`), `Except.error err` for a negative return `err < 0` (the C
  convention; error codes are negative `errno` values);
* `loff_t` file positions are `Nat` (the claims only concern non-negative
  positions reachable through reads and writes);
* kernel locking (`down`/`up`, `i_mutex`) serializes each operation, so each
  C function becomes a pure state-transformer on the data it guards.
-/

namespace Sysfs

/-- One memory page, in bytes (standard configuration). -/
def PAGE_SIZE : Nat := 4096

/-- `errno` values used by dir.c (returned negated, as in C). -/
def ENOMEM : Int := 12

def EFAULT : Int := 14

def EEXIST : Int := 17

def EINVAL : Int := 22

/-- `s_type` flag values from include/linux/sysfs.h. -/
def SYSFS_ROOT : Nat := 0x0001

def SYSFS_DIR : Nat := 0x0002

def SYSFS_KOBJ_ATTR : Nat := 0x0004

def SYSFS_KOBJ_BIN_ATTR : Nat := 0x0008

def SYSFS_KOBJ_LINK : Nat := 0x0020

def SYSFS_NOT_PINNED : Nat := SYSFS_KOBJ_ATTR ||| SYSFS_KOBJ_BIN_ATTR ||| SYSFS_KOBJ_LINK

/-- Poll bits from asm-generic/poll.h. -/
def POLLPRI : Nat := 0x0002

def POLLERR : Nat := 0x0008

/-- Mode bits used by dir.c. -/
def S_IALLUGO : Nat := 0o7777

def S_IFREG : Nat := 0o100000

def S_IFDIR : Nat := 0o040000

/-- `S_IFDIR | S_IRWXU | S_IRUGO | S_IXUGO`, the fixed mode in `create_dir`. -/
def create_dir_mode : Nat := S_IFDIR ||| 0o700 ||| 0o444 ||| 0o111

/-! ## The attribute buffer (`struct sysfs_buffer`, file.c section) -/

/-- `struct sysfs_buffer`: per-open-file state.  `page = none` models a NULL
`buffer->page` (not yet allocated); `some l` models an allocated page holding
byte values `l` (always `PAGE_SIZE` long once allocated). -/
structure SysfsBuffer where
  count : Nat
  page : Option (List Nat)
  needs_read_fill : Bool
  event : Nat
deriving Repr, DecidableEq

/-- The buffer `check_perm` builds at open time: `kzalloc` zeroes every field,
then `buffer->needs_read_fill = 1`. -/
def freshBuffer : SysfsBuffer :=
  { count := 0, page := none, needs_read_fill := true, event := 0 }

/-- A zeroed page, as produced by `get_zeroed_page`. -/
def zeroedPage : List Nat := List.replicate PAGE_SIZE 0

/-- The page contents seen by code that runs after the allocation check:
the already-allocated page, or the freshly zeroed one. -/
def bufferPage (b : SysfsBuffer) : List Nat := b.page.getD zeroedPage

/-- Result of `fill_read_buffer`: C return value, updated buffer, and the
number of `ops->show` invocations performed (0 or 1). -/
structure FillResult where
  ret : Int
  buf : SysfsBuffer
  showCalls : Nat
deriving Repr, DecidableEq

/-- `fill_read_buffer` (file.c): allocate the page if needed, record the
node's event counter, invoke `ops->show` once, clear `needs_read_fill`
(unconditionally, as in the C source), then either record the byte count
(`count >= 0`) or return the error (`count < 0`). -/
def fill_read_buffer (e : Nat) (sr : Except Int (List Nat)) (allocOk : Bool)
    (b : SysfsBuffer) : FillResult :=
  match b.page, allocOk with
  | none, false => ⟨-ENOMEM, b, 0⟩
  | _, _ =>
    match sr with
    | .ok out =>
      ⟨0, { b with event := e,
                   page := some (out ++ (bufferPage b).drop out.length),
                   needs_read_fill := false,
                   count := out.length }, 1⟩
    | .error err =>
      ⟨err, { b with event := e,
                     page := some (bufferPage b),
                     needs_read_fill := false }, 1⟩

/-- `flush_read_buffer` (file.c): nothing past the recorded count; otherwise
copy `min(requested, count - pos)` bytes at offset `pos` to user space and
advance the position.  Returns (C return value, bytes delivered, new pos). -/
def flush_read_buffer (copyOk : Bool) (b : SysfsBuffer) (req pos : Nat) :
    Int × List Nat × Nat :=
  if b.count < pos then (0, [], pos)
  else if copyOk then
    ((min req (b.count - pos) : Nat),
     ((bufferPage b).drop pos).take (min req (b.count - pos)),
     pos + min req (b.count - pos))
  else (-EFAULT, [], pos)

/-- Result of one `sysfs_read_file` call. -/
structure ReadResult where
  retval : Int
  chunk : List Nat
  buf : SysfsBuffer
  pos : Nat
  showCalls : Nat
deriving Repr, DecidableEq

/-- `sysfs_read_file` (file.c): under the buffer semaphore, refill through
`fill_read_buffer` when `needs_read_fill` is set (aborting on its error),
then drain through `flush_read_buffer`. -/
def sysfs_read_file (e : Nat) (sr : Except Int (List Nat))
    (allocOk copyOk : Bool) (b : SysfsBuffer) (req pos : Nat) : ReadResult :=
  if b.needs_read_fill then
    let f := fill_read_buffer e sr allocOk b
    if f.ret ≠ 0 then ⟨f.ret, [], f.buf, pos, f.showCalls⟩
    else
      match flush_read_buffer copyOk f.buf req pos with
      | (rv, chunk, pos') => ⟨rv, chunk, f.buf, pos', f.showCalls⟩
  else
    match flush_read_buffer copyOk b req pos with
    | (rv, chunk, pos') => ⟨rv, chunk, b, pos', 0⟩

/-- Result of a sequence of reads on one open file. -/
structure RunResult where
  chunks : List (List Nat)
  buf : SysfsBuffer
  pos : Nat
  showCalls : Nat
deriving Repr, DecidableEq

/-- A sequence of `sysfs_read_file` calls on one open file (no intervening
write or notification: the node event `e` is fixed).  Each element of
`reads` supplies the outcome `ops->show` would have on that call together
with the requested chunk size, so the run records how many of those
outcomes were actually consumed. -/
def runReads (e : Nat) (allocOk copyOk : Bool) :
    SysfsBuffer → Nat → List (Except Int (List Nat) × Nat) → RunResult
  | b, pos, [] => ⟨[], b, pos, 0⟩
  | b, pos, (sr, req) :: rest =>
    let r := sysfs_read_file e sr allocOk copyOk b req pos
    let rr := runReads e allocOk copyOk r.buf r.pos rest
    ⟨r.chunk :: rr.chunks, rr.buf, rr.pos, r.showCalls + rr.showCalls⟩

/-- A buffer filled exactly as the first successful read on a freshly opened
file leaves it: `show` wrote `out` into the zeroed page. -/
def filledWith (out : List Nat) (b : SysfsBuffer) : Prop :=
  b.needs_read_fill = false ∧ b.count = out.length ∧
    b.page = some (out ++ zeroedPage.drop out.length)

/-- The write cap in `fill_write_buffer`:
`if (count >= PAGE_SIZE) count = PAGE_SIZE - 1;`. -/
def write_cap (n : Nat) : Nat := if PAGE_SIZE ≤ n then PAGE_SIZE - 1 else n

/-- Result of `fill_write_buffer`. -/
structure WriteFillResult where
  ret : Int
  buf : SysfsBuffer
deriving Repr, DecidableEq

/-- `fill_write_buffer` (file.c): allocate the page if needed, cap the count,
copy the user bytes into the page, set `needs_read_fill` (unconditionally,
after the copy attempt), return the capped count or `-EFAULT`.  On a copy
fault the C page holds unspecified partial data; the model keeps the old
contents, which no later operation inspects on that path. -/
def fill_write_buffer (b : SysfsBuffer) (data : List Nat) (n : Nat)
    (allocOk copyOk : Bool) : WriteFillResult :=
  match b.page, allocOk with
  | none, false => ⟨-ENOMEM, b⟩
  | _, _ =>
    if copyOk then
      ⟨(write_cap n : Nat),
       { b with page := some (data.take (write_cap n) ++
                              (bufferPage b).drop (write_cap n)),
                needs_read_fill := true }⟩
    else ⟨-EFAULT, { b with page := some (bufferPage b),
                            needs_read_fill := true }⟩

/-- `flush_write_buffer` (file.c): invoke `ops->store` on the first `cnt`
bytes of the page.  The store behavior is the function `store` from the
bytes it is handed to its `ssize_t` return. -/
def flush_write_buffer (store : List Nat → Int) (b : SysfsBuffer)
    (cnt : Nat) : Int :=
  store ((bufferPage b).take cnt)

/-- Result of one `sysfs_write_file` call; `storeCalls` records the byte
strings passed to each `ops->store` invocation, in order. -/
structure WriteResult where
  retval : Int
  buf : SysfsBuffer
  pos : Nat
  storeCalls : List (List Nat)
deriving Repr, DecidableEq

/-- `sysfs_write_file` (file.c): under the buffer semaphore, copy in the
user bytes; if that yielded a positive count, commit through
`flush_write_buffer`; if the commit result is positive, advance `*ppos`. -/
def sysfs_write_file (store : List Nat → Int) (b : SysfsBuffer)
    (data : List Nat) (n pos : Nat) (allocOk copyOk : Bool) : WriteResult :=
  let f := fill_write_buffer b data n allocOk copyOk
  if 0 < f.ret then
    let arg := (bufferPage f.buf).take f.ret.toNat
    let len2 := flush_write_buffer store f.buf f.ret.toNat
    if 0 < len2 then ⟨len2, f.buf, pos + len2.toNat, [arg]⟩
    else ⟨len2, f.buf, pos, [arg]⟩
  else ⟨f.ret, f.buf, pos, []⟩

/-- `sysfs_poll` (file.c): compare the buffer's recorded event counter with
the node's live one (`e`); on mismatch report `POLLERR|POLLPRI` and force
`needs_read_fill`.  The recorded counter itself is not updated here. -/
def sysfs_poll (e : Nat) (b : SysfsBuffer) : Nat × SysfsBuffer :=
  if b.event ≠ e then
    (POLLERR ||| POLLPRI, { b with needs_read_fill := true })
  else (0, b)

/-! ## The directory-entry shadow tree (`struct sysfs_dirent`, dir.c) -/

/-- `struct sysfs_dirent`, restricted to the fields the modelled operations
read or write.  `s_name` is the name `sysfs_get_name` derives from
`s_element` (`none` models `s_element == NULL`, the cursor case); name
comparison in the C source is exact byte-wise `strcmp`, i.e. `String`
equality.  A parent is represented by its ordered `s_children` list. -/
structure SysfsDirent where
  s_count : Nat
  s_name : Option String
  s_type : Nat
  s_mode : Nat
  s_event : Nat
deriving Repr, DecidableEq

/-- The node `sysfs_new_dirent` builds: `memset` zeroes every field, then
`s_count = 1` and `s_element` is set (later callers fill mode and type). -/
def newDirent (element : Option String) (mode ty : Nat) : SysfsDirent :=
  { s_count := 1, s_name := element, s_type := ty, s_mode := mode,
    s_event := 0 }

/-- `sysfs_new_dirent` (dir.c): allocate a node and `list_add` it into the
parent's children — `list_add` inserts at the HEAD of the list.  Returns the
updated children list and the new node. -/
def sysfs_new_dirent (children : List SysfsDirent) (element : Option String) :
    List SysfsDirent × SysfsDirent :=
  (newDirent element 0 0 :: children, newDirent element 0 0)

/-- `sysfs_dirent_exist` (dir.c): scan the children; on a node with a
non-NULL `s_element` whose derived name equals `new`, return `-EEXIST`,
otherwise 0. -/
def sysfs_dirent_exist : List SysfsDirent → String → Int
  | [], _ => 0
  | sd :: rest, new =>
    match sd.s_name with
    | some existing =>
      if existing = new then -EEXIST else sysfs_dirent_exist rest new
    | none => sysfs_dirent_exist rest new

/-- `sysfs_make_dirent` (dir.c): `sysfs_new_dirent` plus mode and type
(the dentry binding is host state outside this model); `allocOk = false` is
the `kmem_cache_alloc` failure, returning `-ENOMEM` with nothing linked. -/
def sysfs_make_dirent (children : List SysfsDirent) (element : Option String)
    (mode ty : Nat) (allocOk : Bool) : Int × List SysfsDirent :=
  if allocOk then (0, newDirent element mode ty :: children)
  else (-ENOMEM, children)

/-- `sysfs_add_file` (dir.c): under the directory mutex, create the
attribute's dirent unless the name already exists. -/
def sysfs_add_file (children : List SysfsDirent) (attr_name : String)
    (attr_mode ty : Nat) (allocOk : Bool) : Int × List SysfsDirent :=
  if sysfs_dirent_exist children attr_name = 0 then
    sysfs_make_dirent children (some attr_name)
      ((attr_mode &&& S_IALLUGO) ||| S_IFREG) ty allocOk
  else (-EEXIST, children)

/-- The names a directory enumeration reports, in traversal order:
`sysfs_readdir` (dir.c) walks the children from the cursor (which a fresh
pass moves to the list head) to the tail, reporting every node whose
`s_element` is non-NULL and skipping the rest.  This models one full pass
with an accepting `filldir` ("." and ".." precede it). -/
def sysfs_readdir (children : List SysfsDirent) : List String :=
  children.filterMap (fun sd => sd.s_name)

/-- `sysfs_lookup` (dir.c): scan the children for a node with a
`SYSFS_NOT_PINNED` type whose derived name matches, and hand it to the
attach step; `none` is the fall-through (no error, negative dentry). -/
def sysfs_lookup : List SysfsDirent → String → Option SysfsDirent
  | [], _ => none
  | sd :: rest, nm =>
    if sd.s_type &&& SYSFS_NOT_PINNED ≠ 0 then
      if sd.s_name = some nm then some sd else sysfs_lookup rest nm
    else sysfs_lookup rest nm

/-- `sysfs_dir_open` (dir.c): the enumeration cursor is
`sysfs_new_dirent(parent_sd, NULL)` — a real child with NULL element. -/
def sysfs_dir_open (children : List SysfsDirent) :
    List SysfsDirent × SysfsDirent :=
  sysfs_new_dirent children none

/-- `sysfs_notify` (file.c), at the resolved target node: atomically
increment `sd->s_event` (and wake the kobject's poll queue). -/
def sysfs_notify (sd : SysfsDirent) : SysfsDirent :=
  { sd with s_event := sd.s_event + 1 }

/-- `create_dir` (dir.c).  `lookupOk = false` is the `IS_ERR(lookup_one_len)`
path (its `PTR_ERR` is an allocation failure, `-ENOMEM`); `allocOk` is the
`sysfs_make_dirent` allocation.

Modelled from the spec: `sysfs_create`, the host materialization step, lives
in fs/sysfs/inode.c which is not part of the sources; per the spec
(§6 host materialization layer, §7 error taxonomy) it either succeeds or
fails with `OutOfMemory`, here `matOk : Bool` with failure `-ENOMEM`.
A failure there (`error != -EEXIST`) triggers the unwind:
`list_del_init(&sd->s_sibling); sysfs_put(sd); d_drop(*d);`. -/
def create_dir (children : List SysfsDirent) (name : String)
    (lookupOk allocOk matOk : Bool) : Int × List SysfsDirent :=
  if !lookupOk then (-ENOMEM, children)
  else if sysfs_dirent_exist children name ≠ 0 then (-EEXIST, children)
  else
    match sysfs_make_dirent children (some name) create_dir_mode SYSFS_DIR
        allocOk with
    | (e1, ch1) =>
      if e1 ≠ 0 then (e1, children)
      else if matOk then (0, ch1)
      else (-ENOMEM, children)

/-- The kobject fields `sysfs_rename_dir` consults. -/
structure Kobject where
  k_name : String
  k_has_parent : Bool
deriving Repr, DecidableEq

/-- `sysfs_rename_dir` (dir.c): reject renaming to the current name or with
no parent (`-EINVAL`); under the global rename semaphore and the parent
mutex, look up the destination (an `IS_ERR` lookup leaves `error = 0` and
changes nothing); a destination that already has an inode is `-EEXIST`;
otherwise `kobject_set_name` (allocation may fail: `setOk`) and `d_move`.
`host_occupied` lists the destination names whose dentries carry inodes. -/
def sysfs_rename_dir (kobj : Kobject) (host_occupied : List String)
    (new_name : String) (lookupOk setOk : Bool) : Int × Kobject :=
  if kobj.k_name = new_name then (-EINVAL, kobj)
  else if !kobj.k_has_parent then (-EINVAL, kobj)
  else if !lookupOk then (0, kobj)
  else if new_name ∈ host_occupied then (-EEXIST, kobj)
  else if setOk then (0, { kobj with k_name := new_name })
  else (-ENOMEM, kobj)

/-- The live (non-cursor) child names under a parent, in list order. -/
def liveNames (children : List SysfsDirent) : List String :=
  children.filterMap (fun sd => sd.s_name)

/-- Modelled from the spec: `remove(node)` "unlinks `node` from its parent's
children list and releases one reference" (§4.1); the file-removal entry
point `sysfs_hash_and_remove` lives in fs/sysfs/inode.c, not in the sources.
It unlinks the (unique) live child carrying the given name. -/
def sysfs_remove : List SysfsDirent → String → List SysfsDirent
  | [], _ => []
  | sd :: rest, nm =>
    if sd.s_name = some nm then rest else sd :: sysfs_remove rest nm

/-- One create-or-remove operation under a single parent. -/
inductive DirOp where
  | create (nm : String) (am ty : Nat) (allocOk : Bool)
  | remove (nm : String)
deriving Repr, DecidableEq

/-- Apply one operation to a parent's children list. -/
def applyOp (children : List SysfsDirent) : DirOp → List SysfsDirent
  | .create nm am ty allocOk => (sysfs_add_file children nm am ty allocOk).2
  | .remove nm => sysfs_remove children nm

/-- Apply a sequence of operations to a parent's children list. -/
def applyOps (children : List SysfsDirent) : List DirOp → List SysfsDirent
  | [] => children
  | op :: rest => applyOps (applyOp children op) rest

/-- A concrete buffer in the state the first successful read of "42" leaves
a freshly opened file (used to instantiate hypothesis-bearing theorems). -/
def bFilled42 : SysfsBuffer :=
  { count := 2, page := some ([52, 50] ++ zeroedPage.drop 2),
    needs_read_fill := false, event := 0 }

/-! ## Supporting lemmas -/

/-- `flush_read_buffer` with a successful copy and an in-range position:
exactly `min req (count - pos)` bytes come out and the position advances by
that amount. -/
theorem flush_read_buffer_ok (b : SysfsBuffer) (req pos : Nat)
    (hpos : pos ≤ b.count) :
    flush_read_buffer true b req pos =
      (Int.ofNat (min req (b.count - pos)),
       ((bufferPage b).drop pos).take (min req (b.count - pos)),
       pos + min req (b.count - pos)) := by
  simp only [flush_read_buffer, if_neg (by omega : ¬ b.count < pos), if_pos]
  rfl

/-- A read on a buffer filled with `out`, at an in-range position, performs
no show invocation, returns the `min req (count - pos)` slice of the show
output at the current position, and advances the position by its length. -/
theorem read_filled (e : Nat) (sr : Except Int (List Nat)) (out : List Nat)
    (b : SysfsBuffer) (req pos : Nat) (hb : filledWith out b)
    (hpos : pos ≤ out.length) :
    sysfs_read_file e sr true true b req pos =
      ⟨Int.ofNat (min req (out.length - pos)),
       (out.drop pos).take (min req (out.length - pos)),
       b, pos + min req (out.length - pos), 0⟩ := by
  obtain ⟨h1, h2, h3⟩ := hb
  have hpage : bufferPage b = out ++ zeroedPage.drop out.length := by
    rw [bufferPage, h3]; rfl
  have hchunk :
      ((out ++ zeroedPage.drop out.length).drop pos).take
          (min req (out.length - pos)) =
        (out.drop pos).take (min req (out.length - pos)) := by
    rw [List.drop_append_of_le_length hpos,
        List.take_append_of_le_length (by simp)]
  simp only [sysfs_read_file, h1, Bool.false_eq_true, if_false,
    flush_read_buffer_ok b req pos (by omega), h2, hpage, hchunk]

/-- The first read on a freshly opened buffer with a successful show:
exactly one show invocation, the buffer ends up filled with the show
output, and the first `min req out.length` bytes come out. -/
theorem read_fresh (e : Nat) (out : List Nat) (req : Nat) :
    sysfs_read_file e (Except.ok out) true true freshBuffer req 0 =
      ⟨Int.ofNat (min req out.length), out.take (min req out.length),
       { count := out.length,
         page := some (out ++ zeroedPage.drop out.length),
         needs_read_fill := false, event := e },
       min req out.length, 1⟩ := by
  have hfill : fill_read_buffer e (Except.ok out) true freshBuffer =
      ⟨0, { count := out.length,
            page := some (out ++ zeroedPage.drop out.length),
            needs_read_fill := false, event := e }, 1⟩ := rfl
  simp only [sysfs_read_file]
  rw [if_pos (by decide : freshBuffer.needs_read_fill = true)]
  rw [hfill]
  norm_num
  rw [flush_read_buffer_ok _ req 0 (by simp)]
  have hb : bufferPage
      { count := out.length,
        page := some (out ++ zeroedPage.drop out.length),
        needs_read_fill := false, event := e } =
      out ++ zeroedPage.drop out.length := rfl
  simp only [Nat.sub_zero, List.drop_zero, hb]
  rw [List.take_append_of_le_length (by omega)]
  simp

/-- The filled-buffer state is preserved by reads and `read_fresh` reaches
it. -/
theorem filledWith_read_fresh (e : Nat) (out : List Nat) (req : Nat) :
    filledWith out
      (sysfs_read_file e (Except.ok out) true true freshBuffer req 0).buf := by
  rw [read_fresh]
  exact ⟨rfl, rfl, rfl⟩

/-- A run of reads on a filled buffer: zero show invocations, the buffer is
untouched, the position only moves forward (never past the recorded count),
and the chunks concatenate to the slice of the show output between the
initial and final positions. -/
theorem runReads_filled (e : Nat) (out : List Nat)
    (reads : List (Except Int (List Nat) × Nat)) :
    ∀ (b : SysfsBuffer) (pos : Nat), filledWith out b → pos ≤ out.length →
      (runReads e true true b pos reads).showCalls = 0
      ∧ (runReads e true true b pos reads).buf = b
      ∧ pos ≤ (runReads e true true b pos reads).pos
      ∧ (runReads e true true b pos reads).pos ≤ out.length
      ∧ (runReads e true true b pos reads).chunks.flatten
          = (out.drop pos).take ((runReads e true true b pos reads).pos - pos)
      := by
  induction reads with
  | nil =>
    intro b pos hb hpos
    refine ⟨rfl, rfl, le_refl _, hpos, ?_⟩
    simp [runReads]
  | cons hd rest ih =>
    intro b pos hb hpos
    obtain ⟨sr, req⟩ := hd
    have hr := read_filled e sr out b req pos hb hpos
    have hrec := ih b (pos + min req (out.length - pos)) hb (by omega)
    obtain ⟨ih1, ih2, ih3, ih4, ih5⟩ := hrec
    simp only [runReads, hr]
    refine ⟨by simpa using ih1, ih2, by omega, ih4, ?_⟩
    simp only [List.flatten_cons, ih5]
    have harith :
        (runReads e true true b (pos + min req (out.length - pos))
            rest).pos - pos =
          min req (out.length - pos) +
            ((runReads e true true b (pos + min req (out.length - pos))
              rest).pos - (pos + min req (out.length - pos))) := by
      omega
    rw [harith, List.take_add, List.drop_drop]

/-- A read on a buffer that does not need a refill never invokes show. -/
theorem read_no_refill_showCalls (e : Nat) (sr : Except Int (List Nat))
    (aOk cOk : Bool) (b : SysfsBuffer) (req pos : Nat)
    (h : b.needs_read_fill = false) :
    (sysfs_read_file e sr aOk cOk b req pos).showCalls = 0 := by
  simp only [sysfs_read_file, h, Bool.false_eq_true, if_false]

/-- A read on a needs-refill buffer with the page allocation available
invokes show exactly once (whatever show then returns). -/
theorem read_refill_showCalls (e : Nat) (sr : Except Int (List Nat))
    (cOk : Bool) (b : SysfsBuffer) (req pos : Nat)
    (h : b.needs_read_fill = true) :
    (sysfs_read_file e sr true cOk b req pos).showCalls = 1 := by
  have hcalls : (fill_read_buffer e sr true b).showCalls = 1 := by
    cases hp : b.page <;> cases sr <;> simp [fill_read_buffer, hp]
  simp only [sysfs_read_file, h, if_true]
  by_cases hr : (fill_read_buffer e sr true b).ret ≠ 0
  · simp [hr, hcalls]
  · simp only [hr, if_false]
    rcases hfl : flush_read_buffer cOk (fill_read_buffer e sr true b).buf
      req pos with ⟨rv, c, p⟩
    simp [hcalls]

/-- `fill_read_buffer` on a failing show with the allocation available:
the error is returned but `needs_read_fill` is cleared and the event
recorded (the C source clears the flag before checking the result). -/
theorem fill_read_buffer_error (e : Nat) (err : Int) (b : SysfsBuffer) :
    fill_read_buffer e (Except.error err) true b =
      ⟨err, { b with event := e, page := some (bufferPage b),
                     needs_read_fill := false }, 1⟩ := by
  cases hp : b.page <;> simp [fill_read_buffer, hp, bufferPage]

/-! ## C1 -/

/-- C1: on an open attribute file, the first read invokes the bound show
operation exactly once and fills the page with its output; each later read
before any write or notification performs zero further show invocations
(whatever show would have returned, `sr`), copies exactly
`min(requested, count - offset)` bytes from the filled page and advances
the file position by that amount; a whole run of later reads performs zero
show invocations, and the concatenation of all chunks read (first read
included) equals the single show output sliced between position 0 and the
final position. -/
theorem c1_read_fill_once_drain (out : List Nat) (e req0 req pos : Nat)
    (sr : Except Int (List Nat))
    (reads : List (Except Int (List Nat) × Nat)) (b : SysfsBuffer)
    (_hlen : out.length ≤ PAGE_SIZE)
    (hb : filledWith out b) (hpos : pos ≤ out.length) :
    (sysfs_read_file e (Except.ok out) true true freshBuffer req0 0).showCalls
        = 1
    ∧ filledWith out
        (sysfs_read_file e (Except.ok out) true true freshBuffer req0 0).buf
    ∧ (sysfs_read_file e (Except.ok out) true true freshBuffer req0 0).chunk
        = out.take (min req0 out.length)
    ∧ (sysfs_read_file e (Except.ok out) true true freshBuffer req0 0).pos
        = min req0 out.length
    ∧ (sysfs_read_file e sr true true b req pos).showCalls = 0
    ∧ (sysfs_read_file e sr true true b req pos).chunk
        = (out.drop pos).take (min req (out.length - pos))
    ∧ (sysfs_read_file e sr true true b req pos).pos
        = pos + min req (out.length - pos)
    ∧ (sysfs_read_file e sr true true b req pos).retval
        = Int.ofNat (min req (out.length - pos))
    ∧ (runReads e true true b pos reads).showCalls = 0
    ∧ (runReads e true true b pos reads).chunks.flatten
        = (out.drop pos).take ((runReads e true true b pos reads).pos - pos)
    ∧ pos ≤ (runReads e true true b pos reads).pos
    ∧ (runReads e true true b pos reads).pos ≤ out.length
    ∧ (runReads e true true
          (sysfs_read_file e (Except.ok out) true true freshBuffer req0 0).buf
          (sysfs_read_file e (Except.ok out) true true freshBuffer req0 0).pos
          reads).showCalls = 0
    ∧ (sysfs_read_file e (Except.ok out) true true freshBuffer req0 0).chunk
        ++ (runReads e true true
              (sysfs_read_file e (Except.ok out) true true freshBuffer
                req0 0).buf
              (sysfs_read_file e (Except.ok out) true true freshBuffer
                req0 0).pos
              reads).chunks.flatten
      = out.take ((runReads e true true
              (sysfs_read_file e (Except.ok out) true true freshBuffer
                req0 0).buf
              (sysfs_read_file e (Except.ok out) true true freshBuffer
                req0 0).pos
              reads).pos) := by
  have hfirst := read_fresh e out req0
  have hbf : filledWith out
      (sysfs_read_file e (Except.ok out) true true freshBuffer req0 0).buf := by
    rw [hfirst]; exact ⟨rfl, rfl, rfl⟩
  have hone := read_filled e sr out b req pos hb hpos
  obtain ⟨hr1, hr2, hr3, hr4, hr5⟩ := runReads_filled e out reads b pos hb hpos
  have hp0 : (sysfs_read_file e (Except.ok out) true true freshBuffer
      req0 0).pos = min req0 out.length := by rw [hfirst]
  obtain ⟨hs1, hs2, hs3, hs4, hs5⟩ :=
    runReads_filled e out reads
      (sysfs_read_file e (Except.ok out) true true freshBuffer req0 0).buf
      (sysfs_read_file e (Except.ok out) true true freshBuffer req0 0).pos
      hbf (by rw [hp0]; exact Nat.min_le_right _ _)
  refine ⟨by rw [hfirst], hbf, by rw [hfirst], hp0,
    by rw [hone], by rw [hone], by rw [hone], by rw [hone],
    hr1, hr5, hr3, hr4, hs1, ?_⟩
  have hcomp : (sysfs_read_file e (Except.ok out) true true freshBuffer
          req0 0).chunk
      = out.take ((sysfs_read_file e (Except.ok out) true true freshBuffer
          req0 0).pos) := by
    rw [hfirst]
  rw [hcomp, hs5, ← List.take_add]
  congr 1
  omega

/-- C1 witness: the theorem at show output "42" (bytes 52, 50), a first
read of 1 byte from a fresh buffer, a later 9-byte read at offset 1 of the
filled buffer, and a run of two further reads with differing hypothetical
show outcomes. -/
theorem c1_witness :
    ([52, 50] : List Nat).length ≤ PAGE_SIZE
    ∧ filledWith [52, 50] bFilled42
    ∧ (1 : Nat) ≤ ([52, 50] : List Nat).length
    ∧ (sysfs_read_file 0 (Except.ok [52, 50]) true true freshBuffer
        1 0).showCalls = 1 :=
  ⟨by decide, ⟨rfl, rfl, rfl⟩, by decide,
   (c1_read_fill_once_drain [52, 50] 0 1 9 1 (Except.error (-5))
      [(Except.ok [7], 1), (Except.error (-1), 10)] bFilled42
      (by decide) ⟨rfl, rfl, rfl⟩ (by decide)).1⟩

/-! ## C2 -/

/-- Refutation of C2 as stated: on a freshly opened buffer whose show
operation fails with `-5`, the read returns `-5`, but the buffer is NOT
left in the refill-needed state — `fill_read_buffer` clears
`needs_read_fill` before checking the show result — so the next read
performs zero show invocations instead of attempting show again. -/
theorem c2_counterexample :
    (sysfs_read_file 0 (Except.error (-5)) true true freshBuffer
        4 0).retval = -5
    ∧ (sysfs_read_file 0 (Except.error (-5)) true true freshBuffer
        4 0).buf.needs_read_fill = false
    ∧ (sysfs_read_file 0 (Except.ok [1]) true true
        (sysfs_read_file 0 (Except.error (-5)) true true freshBuffer
          4 0).buf 4 0).showCalls = 0 :=
  ⟨rfl, rfl, rfl⟩

/-- C2 amended: if the bound show operation fails (negative return) during
a read on a needs-refill buffer, the read returns that error with no bytes
and an unchanged position — but the buffer is left marked as filled
(`needs_read_fill` cleared, event recorded), so the next read performs
zero show invocations rather than attempting the show operation again. -/
theorem c2_show_error_clears_refill (e : Nat) (err : Int)
    (sr2 : Except Int (List Nat)) (b : SysfsBuffer) (req pos req2 pos2 : Nat)
    (herr : err < 0) (hneeds : b.needs_read_fill = true) :
    (sysfs_read_file e (Except.error err) true true b req pos).retval = err
    ∧ (sysfs_read_file e (Except.error err) true true b req
        pos).buf.needs_read_fill = false
    ∧ (sysfs_read_file e (Except.error err) true true b req pos).buf.event = e
    ∧ (sysfs_read_file e (Except.error err) true true b req pos).chunk = []
    ∧ (sysfs_read_file e (Except.error err) true true b req pos).pos = pos
    ∧ (sysfs_read_file e (Except.error err) true true b req pos).showCalls = 1
    ∧ (sysfs_read_file e sr2 true true
        (sysfs_read_file e (Except.error err) true true b req pos).buf
        req2 pos2).showCalls = 0 := by
  have hfill := fill_read_buffer_error e err b
  have hread : sysfs_read_file e (Except.error err) true true b req pos =
      ⟨err, [], { b with event := e, page := some (bufferPage b),
                         needs_read_fill := false }, pos, 1⟩ := by
    simp only [sysfs_read_file, hneeds, if_true, hfill]
    rw [if_pos (by simpa using (by omega : err ≠ 0))]
  rw [hread]
  exact ⟨rfl, rfl, rfl, rfl, rfl, rfl,
    read_no_refill_showCalls e sr2 true true _ req2 pos2 rfl⟩

/-- C2 witness: the amended theorem at a fresh buffer and error `-5`. -/
theorem c2_witness :
    (-5 : Int) < 0
    ∧ freshBuffer.needs_read_fill = true
    ∧ (sysfs_read_file 3 (Except.error (-5)) true true freshBuffer
        7 0).retval = -5 :=
  ⟨by decide, rfl,
   (c2_show_error_clears_refill 3 (-5) (Except.ok []) freshBuffer 7 0 2 0
      (by decide) rfl).1⟩

/-! ## C3 and C9 -/

/-- The cap never exceeds the requested count. -/
theorem write_cap_le (n : Nat) : write_cap n ≤ n := by
  rw [write_cap]; split <;> omega

/-- `fill_write_buffer` with the allocation available and a successful
copy: the capped count comes back and the capped bytes land at the start
of the page, with `needs_read_fill` set. -/
theorem fill_write_buffer_ok (b : SysfsBuffer) (data : List Nat) (n : Nat) :
    fill_write_buffer b data n true true =
      ⟨Int.ofNat (write_cap n),
       { b with page := some (data.take (write_cap n) ++
                              (bufferPage b).drop (write_cap n)),
                needs_read_fill := true }⟩ := by
  cases hp : b.page <;> simp [fill_write_buffer, hp]

/-- `fill_write_buffer` on a copy fault: `-EFAULT`, but `needs_read_fill`
is still set (the C source sets it after the copy attempt). -/
theorem fill_write_buffer_copy_fault (b : SysfsBuffer) (data : List Nat)
    (n : Nat) :
    fill_write_buffer b data n true false =
      ⟨-EFAULT, { b with page := some (bufferPage b),
                         needs_read_fill := true }⟩ := by
  cases hp : b.page <;> simp [fill_write_buffer, hp, bufferPage]

/-- `fill_write_buffer` when the page is unallocated and the allocation
fails: `-ENOMEM`, buffer untouched. -/
theorem fill_write_buffer_no_page (b : SysfsBuffer) (data : List Nat)
    (n : Nat) (copyOk : Bool) (h : b.page = none) :
    fill_write_buffer b data n false copyOk = ⟨-ENOMEM, b⟩ := by
  simp [fill_write_buffer, h]

/-- Refutation of C3 as stated: a write of N = PAGE_SIZE bytes copies only
`PAGE_SIZE - 1 = 4095` bytes into the buffer (the C source caps at
`PAGE_SIZE - 1`, not one full page), and a write of N = 0 bytes invokes
the bound store operation zero times, not exactly once. -/
theorem c3_counterexample :
    (fill_write_buffer freshBuffer (List.replicate PAGE_SIZE 1) PAGE_SIZE
        true true).ret = 4095
    ∧ (4095 : Int) ≠ (PAGE_SIZE : Int)
    ∧ (sysfs_write_file (fun l => (l.length : Int)) freshBuffer [] 0 5
        true true).storeCalls.length = 0
    ∧ (0 : Nat) ≠ 1 :=
  ⟨rfl, by decide, rfl, by decide⟩

/-- C3 amended: a write of N bytes copies N bytes into the buffer when
N < PAGE_SIZE and `PAGE_SIZE - 1` bytes when N ≥ PAGE_SIZE (one byte short
of a full page), sets the needs-refill flag, and — provided the capped
count is positive — invokes the bound store operation exactly once with
exactly the copied bytes; a zero-length write invokes store zero times and
returns 0.  The count returned by store becomes the write's result and,
exactly when strictly positive, advances the file position by that
amount. -/
theorem c3_write_commit (store : List Nat → Int) (b : SysfsBuffer)
    (data : List Nat) (n pos : Nat) (hn : n = data.length) :
    (sysfs_write_file store b data n pos true true).buf.needs_read_fill
        = true
    ∧ (0 < write_cap n →
        (sysfs_write_file store b data n pos true true).storeCalls
            = [data.take (write_cap n)]
        ∧ (sysfs_write_file store b data n pos true true).retval
            = store (data.take (write_cap n)))
    ∧ (write_cap n = 0 →
        (sysfs_write_file store b data n pos true true).storeCalls = []
        ∧ (sysfs_write_file store b data n pos true true).retval = 0)
    ∧ (0 < (sysfs_write_file store b data n pos true true).retval →
        (sysfs_write_file store b data n pos true true).pos
          = pos +
            (sysfs_write_file store b data n pos true true).retval.toNat)
    ∧ ((sysfs_write_file store b data n pos true true).retval ≤ 0 →
        (sysfs_write_file store b data n pos true true).pos = pos) := by
  have hfill := fill_write_buffer_ok b data n
  have hcle := write_cap_le n
  have hargl : (data.take (write_cap n)).length = write_cap n := by
    simp only [List.length_take]
    omega
  have harg :
      (bufferPage { b with
          page := some (data.take (write_cap n) ++
                        (bufferPage b).drop (write_cap n)),
          needs_read_fill := true }).take (write_cap n)
        = data.take (write_cap n) := by
    simp only [bufferPage, Option.getD_some]
    exact List.take_left' hargl
  have htn : (Int.ofNat (write_cap n)).toNat = write_cap n := rfl
  by_cases hcap : 0 < write_cap n
  · have hw : sysfs_write_file store b data n pos true true =
        (if 0 < store (data.take (write_cap n)) then
          ⟨store (data.take (write_cap n)),
           { b with page := some (data.take (write_cap n) ++
                                  (bufferPage b).drop (write_cap n)),
                    needs_read_fill := true },
           pos + (store (data.take (write_cap n))).toNat,
           [data.take (write_cap n)]⟩
        else
          ⟨store (data.take (write_cap n)),
           { b with page := some (data.take (write_cap n) ++
                                  (bufferPage b).drop (write_cap n)),
                    needs_read_fill := true },
           pos, [data.take (write_cap n)]⟩) := by
      simp only [sysfs_write_file, hfill, flush_write_buffer]
      rw [if_pos (show (0 : Int) < Int.ofNat (write_cap n) from
        Int.ofNat_pos.mpr hcap)]
      simp only [htn, harg]
    by_cases hst : 0 < store (data.take (write_cap n))
    · rw [hw, if_pos hst]
      dsimp only
      exact ⟨rfl, fun _ => ⟨rfl, rfl⟩, fun h0 => by omega,
        fun _ => rfl, fun hle => by omega⟩
    · rw [hw, if_neg hst]
      dsimp only
      exact ⟨rfl, fun _ => ⟨rfl, rfl⟩, fun h0 => by omega,
        fun hpos0 => by omega, fun _ => rfl⟩
  · have hcap0 : write_cap n = 0 := by omega
    have hw : sysfs_write_file store b data n pos true true =
        ⟨Int.ofNat (write_cap n),
         { b with page := some (data.take (write_cap n) ++
                                (bufferPage b).drop (write_cap n)),
                  needs_read_fill := true },
         pos, []⟩ := by
      simp only [sysfs_write_file, hfill]
      rw [if_neg (show ¬ (0 : Int) < Int.ofNat (write_cap n) from
        fun hh => hcap (Int.ofNat_pos.mp hh))]
    rw [hw, hcap0]
    dsimp only
    exact ⟨rfl, fun h => by omega, fun _ => ⟨rfl, rfl⟩,
      fun h => absurd h (by decide), fun _ => rfl⟩

/-- C3 witness: the amended theorem at a 3-byte write. -/
theorem c3_witness :
    (3 : Nat) = ([7, 8, 9] : List Nat).length
    ∧ 0 < write_cap 3
    ∧ (sysfs_write_file (fun l => (l.length : Int)) freshBuffer [7, 8, 9]
        3 5 true true).storeCalls = [[7, 8, 9]] :=
  ⟨by decide, by decide,
   ((c3_write_commit (fun l => (l.length : Int)) freshBuffer [7, 8, 9] 3 5
      (by decide)).2.1 (by decide)).1⟩

/-- C9: for EVERY write (any buffer, allocated page or not), if copying the
caller's bytes into the buffer faults, the write returns `-EFAULT`, the
bound store operation is never invoked, and the file position is
unchanged; if the page allocation fails (which presupposes an unallocated
page, buffer `b2`), the write returns `-ENOMEM` with store likewise never
invoked and the position unchanged.  In general (any buffer, any
allocation/copy outcome), the position advances exactly when the write's
result — store's return when store ran — is strictly positive, and then
a single store invocation happened. -/
theorem c9_write_error_paths (store : List Nat → Int) (b b2 : SysfsBuffer)
    (data : List Nat) (n pos : Nat) (aOk cOk : Bool)
    (hpage : b2.page = none) :
    (sysfs_write_file store b data n pos true false).retval = -EFAULT
    ∧ (sysfs_write_file store b data n pos true false).storeCalls = []
    ∧ (sysfs_write_file store b data n pos true false).pos = pos
    ∧ (sysfs_write_file store b2 data n pos false cOk).retval = -ENOMEM
    ∧ (sysfs_write_file store b2 data n pos false cOk).storeCalls = []
    ∧ (sysfs_write_file store b2 data n pos false cOk).pos = pos
    ∧ (0 < (sysfs_write_file store b data n pos aOk cOk).retval →
        (sysfs_write_file store b data n pos aOk cOk).pos
          = pos + (sysfs_write_file store b data n pos aOk cOk).retval.toNat
        ∧ (sysfs_write_file store b data n pos aOk cOk).storeCalls.length
            = 1)
    ∧ ((sysfs_write_file store b data n pos aOk cOk).retval ≤ 0 →
        (sysfs_write_file store b data n pos aOk cOk).pos = pos) := by
  have hfault : sysfs_write_file store b data n pos true false =
      ⟨-EFAULT, { b with page := some (bufferPage b),
                         needs_read_fill := true }, pos, []⟩ := by
    simp only [sysfs_write_file, fill_write_buffer_copy_fault]
    rw [if_neg (by decide)]
  have hnomem : sysfs_write_file store b2 data n pos false cOk =
      ⟨-ENOMEM, b2, pos, []⟩ := by
    simp only [sysfs_write_file,
      fill_write_buffer_no_page b2 data n cOk hpage]
    rw [if_neg (by decide)]
  refine ⟨by rw [hfault], by rw [hfault], by rw [hfault],
    by rw [hnomem], by rw [hnomem], by rw [hnomem], ?_, ?_⟩
  · simp only [sysfs_write_file]
    by_cases h1 : 0 < (fill_write_buffer b data n aOk cOk).ret
    · rw [if_pos h1]
      by_cases h2 : 0 < flush_write_buffer store
          (fill_write_buffer b data n aOk cOk).buf
          (fill_write_buffer b data n aOk cOk).ret.toNat
      · rw [if_pos h2]; dsimp only; exact fun _ => ⟨rfl, rfl⟩
      · rw [if_neg h2]; dsimp only; intro h; omega
    · rw [if_neg h1]; dsimp only; intro h; omega
  · simp only [sysfs_write_file]
    by_cases h1 : 0 < (fill_write_buffer b data n aOk cOk).ret
    · rw [if_pos h1]
      by_cases h2 : 0 < flush_write_buffer store
          (fill_write_buffer b data n aOk cOk).buf
          (fill_write_buffer b data n aOk cOk).ret.toNat
      · rw [if_pos h2]; dsimp only; intro h; omega
      · rw [if_neg h2]; dsimp only; exact fun _ => rfl
    · rw [if_neg h1]; dsimp only; exact fun _ => rfl

/-- C9 witness: copy fault on a buffer whose page is already allocated
(a write after a prior read), with the allocation-failure conjuncts
instantiated at a fresh unallocated buffer. -/
theorem c9_witness :
    freshBuffer.page = none
    ∧ bFilled42.page ≠ none
    ∧ (sysfs_write_file (fun l => (l.length : Int)) bFilled42 [1, 2] 2 6
        true false).retval = -EFAULT :=
  ⟨rfl, by decide,
   (c9_write_error_paths (fun l => (l.length : Int)) bFilled42 freshBuffer
      [1, 2] 2 6 true true rfl).1⟩

/-! ## C4 -/

/-- Refutation of C4's "exactly once per notify call": after a single
notify on the attribute's node, a second poll with no intervening notify
reports the urgent+priority condition AGAIN — `sysfs_poll` forces
`needs_read_fill` but never updates the buffer's recorded event counter,
so the mismatch persists until a read refills the buffer. -/
theorem c4_counterexample :
    (sysfs_poll (sysfs_notify (newDirent (some "a") 420
        SYSFS_KOBJ_ATTR)).s_event bFilled42).1 = (POLLERR ||| POLLPRI)
    ∧ (sysfs_poll (sysfs_notify (newDirent (some "a") 420
          SYSFS_KOBJ_ATTR)).s_event
        (sysfs_poll (sysfs_notify (newDirent (some "a") 420
            SYSFS_KOBJ_ATTR)).s_event bFilled42).2).1
        = (POLLERR ||| POLLPRI)
    ∧ (POLLERR ||| POLLPRI) ≠ 0 :=
  ⟨rfl, rfl, by decide⟩

/-- C4 amended: a poll on a buffer whose recorded event counter matches the
node's reports nothing; a notify increments the node's counter, after which
every poll — including a repeated poll with no intervening notify — reports
urgent+priority (`POLLERR|POLLPRI`) as long as the buffer has not been
refilled, and each such poll forces the needs-refill flag so that the next
read re-invokes the show operation exactly once even if no write
occurred. -/
theorem c4_poll_notify (sd : SysfsDirent) (b : SysfsBuffer)
    (sr : Except Int (List Nat)) (req pos : Nat)
    (hcur : b.event = sd.s_event) :
    (sysfs_poll sd.s_event b).1 = 0
    ∧ (sysfs_notify sd).s_event = sd.s_event + 1
    ∧ (sysfs_poll (sysfs_notify sd).s_event b).1 = (POLLERR ||| POLLPRI)
    ∧ (sysfs_poll (sysfs_notify sd).s_event b).2.needs_read_fill = true
    ∧ (sysfs_poll (sysfs_notify sd).s_event b).2.event = b.event
    ∧ (sysfs_poll (sysfs_notify sd).s_event
        (sysfs_poll (sysfs_notify sd).s_event b).2).1
        = (POLLERR ||| POLLPRI)
    ∧ (sysfs_read_file (sysfs_notify sd).s_event sr true true
        (sysfs_poll (sysfs_notify sd).s_event b).2 req pos).showCalls
        = 1 := by
  have hne : b.event ≠ (sysfs_notify sd).s_event := by
    simp only [sysfs_notify]
    omega
  have hp : sysfs_poll (sysfs_notify sd).s_event b =
      (POLLERR ||| POLLPRI, { b with needs_read_fill := true }) := by
    rw [sysfs_poll, if_pos hne]
  refine ⟨?_, rfl, by rw [hp], by rw [hp], by rw [hp], ?_, ?_⟩
  · rw [sysfs_poll, if_neg (by simp [hcur])]
  · rw [hp, sysfs_poll,
      if_pos (show ({ b with needs_read_fill := true } :
        SysfsBuffer).event ≠ (sysfs_notify sd).s_event from hne)]
  · rw [hp]
    exact read_refill_showCalls _ sr true _ req pos rfl

/-- C4 witness: a current buffer (event 0) against a node at event 0. -/
theorem c4_witness :
    bFilled42.event = (newDirent (some "a") 420 SYSFS_KOBJ_ATTR).s_event
    ∧ (sysfs_poll (newDirent (some "a") 420 SYSFS_KOBJ_ATTR).s_event
        bFilled42).1 = 0 :=
  ⟨rfl, (c4_poll_notify (newDirent (some "a") 420 SYSFS_KOBJ_ATTR)
      bFilled42 (Except.ok [1]) 4 0 rfl).1⟩

/-! ## Invariant machinery for the children list -/

/-- `sysfs_dirent_exist` in terms of the live names: `-EEXIST` exactly when
the name is already borne by a live child. -/
theorem sysfs_dirent_exist_eq (children : List SysfsDirent) (nm : String) :
    sysfs_dirent_exist children nm =
      if nm ∈ liveNames children then -EEXIST else 0 := by
  induction children with
  | nil => rfl
  | cons sd rest ih =>
    cases h : sd.s_name with
    | none =>
      simp [sysfs_dirent_exist, liveNames, List.filterMap_cons, h, ih]
    | some ex =>
      by_cases hx : ex = nm
      · subst hx
        simp [sysfs_dirent_exist, liveNames, List.filterMap_cons, h]
      · simp only [sysfs_dirent_exist, h, if_neg hx, ih, liveNames,
          List.filterMap_cons]
        by_cases hm : nm ∈ List.filterMap (fun sd => sd.s_name) rest
        · rw [if_pos hm, if_pos (List.mem_cons_of_mem _ hm)]
        · rw [if_neg hm, if_neg (by simp [List.mem_cons, Ne.symm hx, hm])]

/-- Removal only ever drops entries from the live-name list. -/
theorem liveNames_remove_sublist (children : List SysfsDirent)
    (nm : String) :
    (liveNames (sysfs_remove children nm)).Sublist (liveNames children) := by
  induction children with
  | nil => simp [sysfs_remove]
  | cons sd rest ih =>
    by_cases h : sd.s_name = some nm
    · rw [sysfs_remove, if_pos h]
      have : liveNames (sd :: rest) = nm :: liveNames rest := by
        simp [liveNames, List.filterMap_cons, h]
      rw [this]
      exact List.sublist_cons_self _ _
    · rw [sysfs_remove, if_neg h]
      cases hn : sd.s_name with
      | none => simpa [liveNames, List.filterMap_cons, hn] using ih
      | some ex =>
        simpa [liveNames, List.filterMap_cons, hn] using ih.cons₂ ex

/-- After removing name `nm` from a duplicate-free children list, no live
child bears `nm` any more. -/
theorem not_mem_liveNames_remove (children : List SysfsDirent) (nm : String)
    (h : (liveNames children).Nodup) :
    nm ∉ liveNames (sysfs_remove children nm) := by
  induction children with
  | nil => simp [sysfs_remove, liveNames]
  | cons sd rest ih =>
    by_cases hs : sd.s_name = some nm
    · rw [sysfs_remove, if_pos hs]
      have hl : liveNames (sd :: rest) = nm :: liveNames rest := by
        simp [liveNames, List.filterMap_cons, hs]
      rw [hl] at h
      exact (List.nodup_cons.mp h).1
    · rw [sysfs_remove, if_neg hs]
      cases hn : sd.s_name with
      | none =>
        have hl : liveNames (sd :: rest) = liveNames rest := by
          simp [liveNames, List.filterMap_cons, hn]
        rw [hl] at h
        simpa [liveNames, List.filterMap_cons, hn] using ih h
      | some ex =>
        have hl : liveNames (sd :: rest) = ex :: liveNames rest := by
          simp [liveNames, List.filterMap_cons, hn]
        rw [hl] at h
        have hex : ex ≠ nm := by
          intro hcontra
          exact hs (by rw [hn, hcontra])
        have htail := ih (List.nodup_cons.mp h).2
        have hl2 : liveNames (sd :: sysfs_remove rest nm)
            = ex :: liveNames (sysfs_remove rest nm) := by
          simp [liveNames, List.filterMap_cons, hn]
        rw [hl2]
        intro hmem
        rcases List.mem_cons.mp hmem with hcase | hcase
        · exact hex hcase.symm
        · exact htail hcase

/-- A successful create prepends exactly the new dirent. -/
theorem liveNames_add (children : List SysfsDirent) (nm : String)
    (am ty : Nat) (h : sysfs_dirent_exist children nm = 0) :
    (sysfs_add_file children nm am ty true).2
        = newDirent (some nm) ((am &&& S_IALLUGO) ||| S_IFREG) ty :: children
    ∧ (sysfs_add_file children nm am ty true).1 = 0 := by
  rw [sysfs_add_file, if_pos h]
  exact ⟨rfl, rfl⟩

/-- A fresh name is not among the live names. -/
theorem not_mem_of_exist_zero (children : List SysfsDirent) (nm : String)
    (h : sysfs_dirent_exist children nm = 0) : nm ∉ liveNames children := by
  intro hmem
  rw [sysfs_dirent_exist_eq, if_pos hmem] at h
  exact absurd h (by decide)

/-- A taken name makes `sysfs_dirent_exist` report `-EEXIST`. -/
theorem exist_of_mem (children : List SysfsDirent) (nm : String)
    (h : nm ∈ liveNames children) :
    sysfs_dirent_exist children nm = -EEXIST := by
  rw [sysfs_dirent_exist_eq, if_pos h]

/-- One create-or-remove step preserves duplicate-freedom of the live
names. -/
theorem nodup_liveNames_applyOp (children : List SysfsDirent) (op : DirOp)
    (h : (liveNames children).Nodup) :
    (liveNames (applyOp children op)).Nodup := by
  cases op with
  | create nm am ty ok =>
    rw [applyOp]
    by_cases he : sysfs_dirent_exist children nm = 0
    · cases ok with
      | true =>
        rw [(liveNames_add children nm am ty he).1]
        have hmem := not_mem_of_exist_zero children nm he
        have hl : liveNames (newDirent (some nm)
            ((am &&& S_IALLUGO) ||| S_IFREG) ty :: children)
            = nm :: liveNames children := by
          simp [liveNames, List.filterMap_cons, newDirent]
        rw [hl]
        exact List.nodup_cons.mpr ⟨hmem, h⟩
      | false =>
        rw [sysfs_add_file, if_pos he]
        simpa [sysfs_make_dirent] using h
    · rw [sysfs_add_file, if_neg he]
      exact h
  | remove nm =>
    exact (liveNames_remove_sublist children nm).nodup h

/-- Any sequence of create/remove steps preserves duplicate-freedom. -/
theorem nodup_liveNames_applyOps (ops : List DirOp) :
    ∀ (children : List SysfsDirent), (liveNames children).Nodup →
      (liveNames (applyOps children ops)).Nodup := by
  induction ops with
  | nil => intro children h; exact h
  | cons op rest ih =>
    intro children h
    rw [applyOps]
    exact ih _ (nodup_liveNames_applyOp children op h)

/-! ## C5 -/

/-- C5: creating a child whose derived name equals that of an existing live
child fails with `-EEXIST` and adds no node; starting from a duplicate-free
parent, any sequence of create/remove operations keeps the live names
duplicate-free; `exists` reports the name right after a successful create
and no longer reports it right after the remove. -/
theorem c5_unique_names (ch1 ch2 : List SysfsDirent) (nm1 nm2 : String)
    (am ty : Nat) (ops : List DirOp)
    (h1 : sysfs_dirent_exist ch1 nm1 ≠ 0)
    (h2 : (liveNames ch2).Nodup)
    (h3 : sysfs_dirent_exist ch2 nm2 = 0) :
    sysfs_add_file ch1 nm1 am ty true = (-EEXIST, ch1)
    ∧ (liveNames (applyOps ch2 ops)).Nodup
    ∧ sysfs_dirent_exist (sysfs_add_file ch2 nm2 am ty true).2 nm2 = -EEXIST
    ∧ sysfs_dirent_exist
        (sysfs_remove (sysfs_add_file ch2 nm2 am ty true).2 nm2) nm2
        = 0 := by
  obtain ⟨hadd, _⟩ := liveNames_add ch2 nm2 am ty h3
  have hl : liveNames (sysfs_add_file ch2 nm2 am ty true).2
      = nm2 :: liveNames ch2 := by
    rw [hadd]
    simp [liveNames, List.filterMap_cons, newDirent]
  have hnodup2 : (liveNames (sysfs_add_file ch2 nm2 am ty true).2).Nodup := by
    rw [hl]
    exact List.nodup_cons.mpr ⟨not_mem_of_exist_zero ch2 nm2 h3, h2⟩
  refine ⟨by rw [sysfs_add_file, if_neg h1], nodup_liveNames_applyOps ops ch2 h2,
    exist_of_mem _ nm2 (by rw [hl]; exact List.mem_cons_self _ _), ?_⟩
  rw [sysfs_dirent_exist_eq,
    if_neg (not_mem_liveNames_remove _ nm2 hnodup2)]

/-- C5 witness: a parent holding "a", a duplicate create of "a", and a
create/remove cycle of "b" on an empty parent. -/
theorem c5_witness :
    sysfs_dirent_exist [newDirent (some "a") 420 SYSFS_KOBJ_ATTR] "a" ≠ 0
    ∧ (liveNames ([] : List SysfsDirent)).Nodup
    ∧ sysfs_dirent_exist ([] : List SysfsDirent) "b" = 0
    ∧ sysfs_add_file [newDirent (some "a") 420 SYSFS_KOBJ_ATTR] "a" 420
        SYSFS_KOBJ_ATTR true
        = (-EEXIST, [newDirent (some "a") 420 SYSFS_KOBJ_ATTR]) :=
  ⟨by decide, by decide, by decide,
   (c5_unique_names [newDirent (some "a") 420 SYSFS_KOBJ_ATTR] [] "a" "b"
      420 SYSFS_KOBJ_ATTR
      [DirOp.create "b" 420 SYSFS_KOBJ_ATTR true, DirOp.remove "b"]
      (by decide) (by decide) (by decide)).1⟩

/-! ## C6 -/

/-- Refutation of C6 as stated: creating "a" then "b" under one parent
makes enumeration report ["b", "a"] — the most recently created child
first, not insertion order ["a", "b"] — because `sysfs_new_dirent` links
new nodes with `list_add`, which inserts at the HEAD of the children
list. -/
theorem c6_counterexample :
    sysfs_readdir (sysfs_add_file
        (sysfs_add_file [] "a" 420 SYSFS_KOBJ_ATTR true).2
        "b" 420 SYSFS_KOBJ_ATTR true).2 = ["b", "a"]
    ∧ (["b", "a"] : List String) ≠ ["a", "b"] :=
  ⟨rfl, by decide⟩

/-- C6 amended: a successful create PREPENDS the new node to the front of
the parent's children list (`list_add` inserts at the head), and directory
enumeration reports live children in reverse insertion order — the most
recently created child first — not sorted by name. -/
theorem c6_create_prepends (ch : List SysfsDirent) (nm : String)
    (am ty : Nat) (h : sysfs_dirent_exist ch nm = 0) :
    (sysfs_add_file ch nm am ty true).1 = 0
    ∧ (sysfs_add_file ch nm am ty true).2
        = newDirent (some nm) ((am &&& S_IALLUGO) ||| S_IFREG) ty :: ch
    ∧ sysfs_readdir (sysfs_add_file ch nm am ty true).2
        = nm :: sysfs_readdir ch := by
  obtain ⟨ha, hb⟩ := liveNames_add ch nm am ty h
  refine ⟨hb, ha, ?_⟩
  rw [ha]
  simp [sysfs_readdir, List.filterMap_cons, newDirent]

/-- C6 witness: creating "b" over a parent already holding "a". -/
theorem c6_witness :
    sysfs_dirent_exist [newDirent (some "a") 420 SYSFS_KOBJ_ATTR] "b" = 0
    ∧ sysfs_readdir (sysfs_add_file
        [newDirent (some "a") 420 SYSFS_KOBJ_ATTR] "b" 420 SYSFS_KOBJ_ATTR
        true).2 = ["b", "a"] :=
  ⟨by decide,
   (c6_create_prepends [newDirent (some "a") 420 SYSFS_KOBJ_ATTR] "b" 420
      SYSFS_KOBJ_ATTR (by decide)).2.2.trans (by decide)⟩

/-! ## C7 -/

/-- C7: renaming an object directory to its own current name fails with
`-EINVAL`; renaming an object with no parent fails with `-EINVAL`; renaming
to a destination name that already has an inode fails with `-EEXIST`,
leaving the source kobject (name included) unchanged — and no children
list is touched on any of these paths. -/
theorem c7_rename_errors (kobj k2 : Kobject) (occ : List String)
    (nm : String) (lookupOk setOk : Bool)
    (hnopar : k2.k_has_parent = false) (hneq2 : k2.k_name ≠ nm)
    (hparent : kobj.k_has_parent = true)
    (hneq : kobj.k_name ≠ nm) (hocc : nm ∈ occ) :
    sysfs_rename_dir kobj occ kobj.k_name lookupOk setOk = (-EINVAL, kobj)
    ∧ sysfs_rename_dir k2 occ nm lookupOk setOk = (-EINVAL, k2)
    ∧ sysfs_rename_dir kobj occ nm true setOk = (-EEXIST, kobj) := by
  refine ⟨by rw [sysfs_rename_dir, if_pos rfl], ?_, ?_⟩
  · rw [sysfs_rename_dir, if_neg hneq2, if_pos (by simp [hnopar])]
  · rw [sysfs_rename_dir, if_neg hneq, if_neg (by simp [hparent]),
      if_neg (by decide), if_pos hocc]

/-- C7 witness: an object "x" under a parent, a parentless object "z", and
an occupied destination "y". -/
theorem c7_witness :
    (Kobject.mk "z" false).k_has_parent = false
    ∧ (Kobject.mk "z" false).k_name ≠ "y"
    ∧ (Kobject.mk "x" true).k_has_parent = true
    ∧ (Kobject.mk "x" true).k_name ≠ "y"
    ∧ "y" ∈ ["y"]
    ∧ sysfs_rename_dir (Kobject.mk "x" true) ["y"] "x" true true
        = (-EINVAL, Kobject.mk "x" true) :=
  ⟨rfl, by decide, rfl, by decide, by decide,
   (c7_rename_errors (Kobject.mk "x" true) (Kobject.mk "z" false) ["y"]
      "y" true true rfl (by decide) rfl (by decide) (by decide)).1⟩

/-! ## C8 -/

/-- C8: if host materialization fails after the new DirEntry has been
linked into the parent's children list, `create_dir` unlinks it again and
returns the error, leaving the children exactly as before; for contrast, a
fully successful creation leaves exactly the one new node linked.
(The materialization step `sysfs_create` lives outside the sources and is
modelled from the spec as failing only with OutOfMemory.) -/
theorem c8_create_dir_unwind (ch : List SysfsDirent) (nm : String)
    (hfree : sysfs_dirent_exist ch nm = 0) :
    create_dir ch nm true true false = (-ENOMEM, ch)
    ∧ create_dir ch nm true true true
        = (0, newDirent (some nm) create_dir_mode SYSFS_DIR :: ch) := by
  constructor <;>
    simp [create_dir, hfree, sysfs_make_dirent]

/-- C8 witness: a failed and a successful materialization over an empty
parent. -/
theorem c8_witness :
    sysfs_dirent_exist ([] : List SysfsDirent) "d" = 0
    ∧ create_dir [] "d" true true false = (-ENOMEM, []) :=
  ⟨by decide, (c8_create_dir_unwind [] "d" (by decide)).1⟩

/-! ## C10 -/

/-- `sysfs_dirent_exist` ignores a node with a NULL element, wherever it
sits in the children list. -/
theorem exist_skip_nameless (c : SysfsDirent) (hc : c.s_name = none) :
    ∀ (l1 l2 : List SysfsDirent) (nm : String),
      sysfs_dirent_exist (l1 ++ c :: l2) nm
        = sysfs_dirent_exist (l1 ++ l2) nm := by
  intro l1
  induction l1 with
  | nil =>
    intro l2 nm
    simp [sysfs_dirent_exist, hc]
  | cons sd rest ih =>
    intro l2 nm
    cases h : sd.s_name with
    | none => simp [sysfs_dirent_exist, h, ih]
    | some ex =>
      by_cases hx : ex = nm <;> simp [sysfs_dirent_exist, h, hx, ih]

/-- `sysfs_lookup` ignores a node whose type is 0 (not `SYSFS_NOT_PINNED`),
wherever it sits in the children list. -/
theorem lookup_skip_cursor (c : SysfsDirent) (hc : c.s_type = 0) :
    ∀ (l1 l2 : List SysfsDirent) (nm : String),
      sysfs_lookup (l1 ++ c :: l2) nm = sysfs_lookup (l1 ++ l2) nm := by
  intro l1
  induction l1 with
  | nil =>
    intro l2 nm
    simp [sysfs_lookup, hc, Nat.zero_and]
  | cons sd rest ih =>
    intro l2 nm
    simp only [List.cons_append, sysfs_lookup]
    by_cases ht : sd.s_type &&& SYSFS_NOT_PINNED ≠ 0
    · rw [if_pos ht, if_pos ht]
      by_cases hn : sd.s_name = some nm
      · simp [hn]
      · simp [hn, ih]
    · rw [if_neg ht, if_neg ht]
      exact ih l2 nm

/-- C10: the enumeration cursor `sysfs_dir_open` creates is a real child
with NULL element (no payload) and type 0, inserted at the head of the
children list; wherever such a cursor sits, the duplicate-name check
ignores it, directory enumeration never reports it, and name lookup never
resolves it — so open directory cursors are invisible to all three. -/
theorem c10_cursor_invisible (ch l1 l2 : List SysfsDirent) (nm : String) :
    (sysfs_dir_open ch).2.s_name = none
    ∧ (sysfs_dir_open ch).2.s_type = 0
    ∧ (sysfs_dir_open ch).1 = (sysfs_dir_open ch).2 :: ch
    ∧ sysfs_dirent_exist (l1 ++ (sysfs_dir_open ch).2 :: l2) nm
        = sysfs_dirent_exist (l1 ++ l2) nm
    ∧ sysfs_readdir (l1 ++ (sysfs_dir_open ch).2 :: l2)
        = sysfs_readdir (l1 ++ l2)
    ∧ sysfs_lookup (l1 ++ (sysfs_dir_open ch).2 :: l2) nm
        = sysfs_lookup (l1 ++ l2) nm := by
  refine ⟨rfl, rfl, rfl, exist_skip_nameless _ rfl l1 l2 nm, ?_,
    lookup_skip_cursor _ rfl l1 l2 nm⟩
  simp [sysfs_readdir, List.filterMap_append, List.filterMap_cons]
  rfl

end Sysfs
